import Mathlib

/-!
Verification of the Go code-generation backend of thriftgo
(`src/generator/golang/backend.go`, plus the `Trimmer.preProcess`
fragment of the trimmer package).

The embedding is shallow: Go structs become Lean structures, the
stateful `GoBackend` pipeline becomes explicit state passing, Go's
`error` becomes `Option String` / `Except String`, and the opaque
collaborators that are not part of `src/` (CodeUtils, BuildRefScope,
template execution, streaming.ParseStreaming, trim.TrimAST,
markKeptPart, parser.Thrift.DepthFirstSearch) are abstracted as
fields of an environment record `Env`, so that every claim is decided
by the control flow that *is* in `src/`.
-/

namespace Thriftgo

/-- A thrift function declaration (`parser.Function`).  Only the name is
needed by the code under verification; its streaming classification is
computed by the opaque collaborator `streaming.ParseStreaming`, which is
abstracted in `Env`. -/
structure Function where
  name : String
  deriving Repr, DecidableEq

/-- A thrift service declaration (`parser.Service`). -/
structure Service where
  name : String
  functions : List Function
  deriving Repr, DecidableEq

/-- `parser.Thrift`: one parsed IDL file (a Program) with its services and
its ordered include edges.  Go identifies a Program by pointer; the
embedding carries an explicit `ptrId` standing for pointer identity, so
two distinct parses of files with equal path strings have distinct
`ptrId`s, and a diamond include is two edges whose target subtrees carry
the same `ptrId`.  An include edge (`parser.Include`) is a pair of the
edge's own identity and the referenced Program. -/
inductive Thrift : Type where
  | mk (ptrId : Nat) (filename : String) (services : List Service)
       (includes : List (Nat × Thrift)) : Thrift

/-- The pointer identity of a Program. -/
def Thrift.ptrId : Thrift → Nat
  | .mk i _ _ _ => i

/-- The file name recorded in a Program. -/
def Thrift.filename : Thrift → String
  | .mk _ f _ _ => f

/-- The services of a Program. -/
def Thrift.services : Thrift → List Service
  | .mk _ _ s _ => s

/-- The include edges of a Program. -/
def Thrift.includes : Thrift → List (Nat × Thrift)
  | .mk _ _ _ i => i

/-- `strings.TrimSuffix` from the Go standard library: remove the suffix
when present, return the string unchanged otherwise. -/
def trimSuffix (s suffix : String) : String :=
  if suffix.data.isSuffixOf s.data then
    String.mk (s.data.take (s.data.length - suffix.data.length))
  else s

/-- `ToRefFilename` (backend.go:223): under preserve-name mode the main
filename is reused, otherwise a trailing `.go` is replaced by `-ref.go`. -/
def ToRefFilename (keepName : Bool) (filename : String) : String :=
  if keepName then filename
  else trimSuffix filename ".go" ++ "-ref.go"

/-- `ToReflectionFilename` (backend.go:230). -/
def ToReflectionFilename (filename : String) : String :=
  trimSuffix filename ".go" ++ "-reflection.go"

/-- `ToReflectionRefFilename` (backend.go:234). -/
def ToReflectionRefFilename (keepName : Bool) (filename : String) : String :=
  if keepName then ToReflectionFilename filename
  else trimSuffix filename ".go" ++ "-reflection-ref.go"

/-- The per-file `Scope` (its partitions, as consulted by
`Scope.IsEmpty`; the declarations themselves are opaque to backend.go,
so each partition is a list of names). -/
structure Scope where
  constants : List String
  typedefs : List String
  enums : List String
  structs : List String
  unions : List String
  exceptions : List String
  services : List String
  synthesized : List String
  deriving Repr, DecidableEq

/-- `Scope.IsEmpty` (backend.go:241): true iff all eight partitions have
length zero, transcribed from the Go conjunction. -/
def Scope.IsEmpty (s : Scope) : Bool :=
  if s.constants.length = 0 &&
     s.typedefs.length = 0 &&
     s.enums.length = 0 &&
     s.structs.length = 0 &&
     s.unions.length = 0 &&
     s.exceptions.length = 0 &&
     s.services.length = 0 &&
     s.synthesized.length = 0 then
    true
  else false

/-- `plugin.Generated`: one Artifact — either a full file (`name` set) or
an insertion-point fragment (`insertionPoint` set). -/
structure Generated where
  content : String
  name : Option String
  insertionPoint : Option String
  deriving Repr, DecidableEq

/-- `plugin.Response`: an ordered artifact list or an error string. -/
structure Response where
  error : Option String
  contents : List Generated
  deriving Repr, DecidableEq

/-- `plugin.NewResponse`: the fresh response `Generate` starts from. -/
def NewResponse : Response := { error := none, contents := [] }

/-- `plugin.BuildErrorResponse`: a single-error response with no
artifacts. -/
def BuildErrorResponse (e : String) : Response :=
  { error := some e, contents := [] }

/-- The streaming classification returned by the opaque collaborator
`streaming.ParseStreaming`. -/
structure Streaming where
  isStreaming : Bool
  deriving Repr, DecidableEq

/-- The feature flags of `CodeUtils.Features()` that backend.go consults. -/
structure Features where
  trimIDL : Bool
  thriftStreaming : Bool
  skipGoGen : Bool
  withReflection : Bool
  keepCodeRefName : Bool
  skipEmpty : Bool
  noFmt : Bool
  deriving Repr, DecidableEq

/-- Which of the four parsed template sets a render call executes
(`g.tpl`, `g.refTpl`, `g.reflectionRefTpl`, `g.reflectionTpl`). -/
inductive TplId : Type where
  | main | ref | reflectionRef | reflection
  deriving Repr, DecidableEq

/-- The Import List a Scope resolves to: (module path, alias) pairs.
Its construction lives in the scope resolver, which is not in `src/`;
backend.go treats it as an opaque value passed to the Imports template. -/
def ImportList : Type := List (String × String)

/-- The collaborators of backend.go that are not part of `src/`, as an
explicit environment.  `features` and `optionsError` are the state of
`CodeUtils` after `HandleOptions` ran on the request's generator
parameters; `trimAST` is `trim.TrimAST` (returning the trimmed AST or an
error); `parseStreaming` is `streaming.ParseStreaming`; `buildRefScope`
is `BuildRefScope` (local scope, ref scope); `execTemplate` and
`execImportsTemplate` are `Template.ExecuteTemplate` on the full file
and on the named `Imports` template; `resolveImports` is
`Scope.ResolveImports`.  All are pure functions: the claims below are
decided by the control flow of backend.go, not by their behaviour. -/
structure Env where
  features : Features
  optionsError : Option String
  trimAST : Thrift → Except String Thrift
  parseStreaming : Function → Except String Streaming
  buildRefScope : Thrift → Except String (Option Scope × Option Scope)
  combineOutputPath : String → Thrift → String
  getFilename : Thrift → String
  execTemplate : TplId → Scope → Except String String
  execImportsTemplate : TplId → ImportList → Except String String
  resolveImports : Scope → Except String ImportList

/-- `plugin.Request`, restricted to the fields backend.go reads: the root
AST, the output path and the recursive flag.  The generator parameters
are absorbed into `Env.optionsError` / `Env.features`. -/
structure Request where
  ast : Thrift
  outputPath : String
  recursive : Bool

/-- The warning logged by `removeStreamingFunctions` when
`ParseStreaming` fails for a function (backend.go:335). -/
def parseFailWarning (svc : Service) (f : Function) (e : String) : String :=
  svc.name ++ "." ++ f.name ++ ": failed to parse streaming, err = " ++ e

/-- The warning logged by `removeStreamingFunctions` when a streaming
function is dropped (backend.go:339). -/
def skipStreamingWarning (svc : Service) (f : Function) : String :=
  "skip streaming function " ++ svc.name ++ "." ++ f.name ++
    ": not supported by your kitex, please update your kitex tool to the latest version"

/-- One iteration of the function loop of `removeStreamingFunctions`
(backend.go:332): a function whose classification fails is dropped with
a warning, a streaming function is dropped with a warning, any other
function is appended to the rebuilt list. -/
def filterStep (env : Env) (svc : Service) (acc : List Function × List String)
    (f : Function) : List Function × List String :=
  match env.parseStreaming f with
  | .error e => (acc.1, acc.2 ++ [parseFailWarning svc f e])
  | .ok st =>
    if st.isStreaming then (acc.1, acc.2 ++ [skipStreamingWarning svc f])
    else (acc.1 ++ [f], acc.2)

/-- The body of the per-service loop of `removeStreamingFunctions`
(backend.go:331): rebuild the function list from an empty accumulator. -/
def filterServiceFunctions (env : Env) (svc : Service) : Service × List String :=
  let r := svc.functions.foldl (filterStep env svc) ([], [])
  ({ svc with functions := r.1 }, r.2)

/-- The streaming classification as a boolean (false when classification
fails — such functions are dropped with a different warning and are
excluded by the claims' hypotheses). -/
def isStreamingB (env : Env) (f : Function) : Bool :=
  match env.parseStreaming f with
  | .ok st => st.isStreaming
  | .error _ => false

/-- `GoBackend.removeStreamingFunctions` (backend.go:329): applied to one
AST, it rewrites the function list of each of *that* AST's services in
place; included Programs are not touched.  Returns the rewritten AST and
the warnings, in order. -/
def removeStreamingFunctions (env : Env) : Thrift → Thrift × List String
  | .mk pid fn svcs incs =>
    let rs := svcs.map (filterServiceFunctions env)
    (.mk pid fn (rs.map Prod.fst) incs, (rs.map Prod.snd).flatten)

/-- The `sync.Pool` of scratch buffers, as the list of buffer contents
available for checkout.  `Get` pops a buffer (or makes a fresh empty
one), `Put` pushes it back. -/
def Pool : Type := List String

/-- `poolBuffer.Get` (backend.go:274). -/
def poolGet : Pool → String × Pool
  | [] => ("", [])
  | b :: rest => (b, rest)

/-- `poolBuffer.Put`, run by `defer` on every exit path of
`renderByTemplate` (backend.go:275). -/
def poolPut (w : String) (p : Pool) : Pool := w :: p

/-- `GoBackend.renderByTemplate` (backend.go:263), as a pure function
returning (error, artifacts appended to `g.res.Contents`, pool after the
deferred `Put`).  A nil scope or (under `SkipEmpty`) an empty scope
renders nothing; otherwise the checked-out buffer is `Reset` before each
use, the full file is appended, then the imports fragment tagged with
insertion point `imports`.  Note that the full-file artifact is appended
*before* import resolution, so an import failure leaves it in
`g.res.Contents` (discarded later by `buildResponse`). -/
def renderByTemplate (env : Env) (scope : Option Scope) (tpl : TplId)
    (filename : String) (pool : Pool) : Option String × List Generated × Pool :=
  match scope with
  | none => (none, [], pool)
  | some s =>
    if env.features.skipEmpty && s.IsEmpty then (none, [], pool)
    else
      let g := poolGet pool
      let w := g.1
      let pool1 := g.2
      -- w.Reset()
      let w := ""
      match env.execTemplate tpl s with
      | .error e => (some (filename ++ ": " ++ e), [], poolPut w pool1)
      | .ok out =>
        let w := w ++ out
        let art1 : Generated := { content := w, name := some filename, insertionPoint := none }
        match env.resolveImports s with
        | .error e => (some e, [art1], poolPut w pool1)
        | .ok imports =>
          -- w.Reset()
          let w := ""
          match env.execImportsTemplate tpl imports with
          | .error e => (some (filename ++ ": " ++ e), [art1], poolPut w pool1)
          | .ok outi =>
            let w := w ++ outi
            let art2 : Generated := { content := w, name := none, insertionPoint := some "imports" }
            (none, [art1, art2], poolPut w pool1)

/-- `filepath.Join` of a directory and a file name (separator `/`). -/
def pathJoin (dir file : String) : String := dir ++ "/" ++ file

/-- `GoBackend.renderOneFile` (backend.go:197): build the two scopes,
then render main file, reference file, and (with reflection enabled)
reflection-reference and reflection files, stopping at the first error.
Returns (error, artifacts appended, pool). -/
def renderOneFile (env : Env) (req : Request) (ast : Thrift) (pool : Pool) :
    Option String × List Generated × Pool :=
  let keepName := env.features.keepCodeRefName
  let path := env.combineOutputPath req.outputPath ast
  let filename := pathJoin path (env.getFilename ast)
  match env.buildRefScope ast with
  | .error e => (some e, [], pool)
  | .ok scopes =>
    let localScope := scopes.1
    let refScope := scopes.2
    match renderByTemplate env localScope .main filename pool with
    | (some e, a1, pool) => (some e, a1, pool)
    | (none, a1, pool) =>
      match renderByTemplate env refScope .ref (ToRefFilename keepName filename) pool with
      | (some e, a2, pool) => (some e, a1 ++ a2, pool)
      | (none, a2, pool) =>
        if env.features.withReflection then
          match renderByTemplate env refScope .reflectionRef
              (ToReflectionRefFilename keepName filename) pool with
          | (some e, a3, pool) => (some e, a1 ++ a2 ++ a3, pool)
          | (none, a3, pool) =>
            match renderByTemplate env localScope .reflection
                (ToReflectionFilename filename) pool with
            | (e4, a4, pool) => (e4, a1 ++ a2 ++ a3 ++ a4, pool)
        else (none, a1 ++ a2, pool)

mutual
/-- Modelled from the spec: `parser.Thrift.DepthFirstSearch` is not in
`src/`; the spec's Program Graph Walker contract says it enumerates the
Programs reachable from the root via include edges, root first, a
descendant never before its first discovery.  It is modelled as the
plain preorder enumeration of the include graph, duplicates included —
deduplication is performed by the caller's `processed` set
(`executeTemplates`, backend.go:173), which is in `src/`. -/
def dfs : Thrift → List Thrift
  | .mk pid fn svcs incs => .mk pid fn svcs incs :: dfsList incs

/-- Preorder enumeration of a list of include edges. -/
def dfsList : List (Nat × Thrift) → List Thrift
  | [] => []
  | (_, t) :: rest => dfs t ++ dfsList rest
end

/-- The loop of `executeTemplates` (backend.go:184): render each tree not
yet in the `processed` set, marking it processed first; on the first
render error the loop breaks, keeping the artifacts already appended.
Returns (error, artifacts, the Programs actually passed to
`renderOneFile` in order, pool). -/
def executeTemplatesLoop (env : Env) (req : Request) :
    List Thrift → List Nat → List Generated → List Thrift → Pool →
    Option String × List Generated × List Thrift × Pool
  | [], _, acc, procs, pool => (none, acc, procs, pool)
  | t :: rest, processed, acc, procs, pool =>
    if t.ptrId ∈ processed then
      executeTemplatesLoop env req rest processed acc procs pool
    else
      match renderOneFile env req t pool with
      | (some e, arts, pool1) => (some e, acc ++ arts, procs ++ [t], pool1)
      | (none, arts, pool1) =>
        executeTemplatesLoop env req rest (t.ptrId :: processed) (acc ++ arts) (procs ++ [t]) pool1

/-- `GoBackend.executeTemplates` (backend.go:168) on a given AST: in
recursive mode walk the include graph depth-first, otherwise take the
root alone; dedup by Program pointer identity via the `processed` map. -/
def executeTemplates (env : Env) (req : Request) (ast : Thrift) (pool : Pool) :
    Option String × List Generated × List Thrift × Pool :=
  let trees := if req.recursive then dfs ast else [ast]
  executeTemplatesLoop env req trees [] [] [] pool

/-- Everything `Generate` leaves behind that the claims observe: the
response, the AST after the in-place mutation stages, the Programs
rendered (in order), the streaming-removal warnings, and the buffer
pool. -/
structure GenResult where
  response : Response
  finalAst : Thrift
  processed : List Thrift
  warnings : List String
  pool : Pool

/-- `GoBackend.buildResponse` (backend.go:305): a set error discards
`g.res` wholesale and yields a single-error response. -/
def buildResponse (err : Option String) (contents : List Generated) : Response :=
  match err with
  | some e => BuildErrorResponse e
  | none => { error := none, contents := contents }

/-- The tail of `Generate` after the trim stage (backend.go:105):
streaming removal on the given AST when `ThriftStreaming` is off, then
either the SkipGoGen shortcut or template preparation and execution
(both of which are no-ops when `err0`, the option-handling error, is
set), then `buildResponse`. -/
def generateAfterTrim (env : Env) (req : Request) (err0 : Option String)
    (ast1 : Thrift) (pool : Pool) : GenResult :=
  let r := if !env.features.thriftStreaming then removeStreamingFunctions env ast1
           else (ast1, [])
  let ast2 := r.1
  let warns := r.2
  if env.features.skipGoGen then
    { response := buildResponse err0 [], finalAst := ast2, processed := [],
      warnings := warns, pool := pool }
  else
    match err0 with
    | some e =>
      -- prepareTemplates / fillRequisitions / executeTemplates all
      -- early-return on a set error; g.res stays empty
      { response := BuildErrorResponse e, finalAst := ast2, processed := [],
        warnings := warns, pool := pool }
    | none =>
      match executeTemplates env req ast2 pool with
      | (err, arts, procs, pool1) =>
        { response := buildResponse err arts, finalAst := ast2, processed := procs,
          warnings := warns, pool := pool1 }

/-- `GoBackend.Generate` (backend.go:87): option handling, the optional
trim stage (which runs even when option handling failed, and returns the
error response immediately on trim failure), then `generateAfterTrim`. -/
def generate (env : Env) (req : Request) (pool : Pool) : GenResult :=
  let err0 := env.optionsError
  if env.features.trimIDL then
    match env.trimAST req.ast with
    | .error e =>
      { response := BuildErrorResponse e, finalAst := req.ast, processed := [],
        warnings := [], pool := pool }
    | .ok ast1 => generateAfterTrim env req err0 ast1 pool
  else generateAfterTrim env req err0 req.ast pool

mutual
/-- `Trimmer.preProcess` (trim fragment in `src/`): mark the kept part of
the current Program, then recurse into every include; an include edge
whose subtree reported a mark is added to the current file's Mark Set.
The per-declaration marker `markKeptPart` is not in `src/` (modelled
from the spec: it marks the declarations of one Program kept and reports
whether it marked anything); it is abstracted as the predicate `mk`.
Returns the include-edge identities added to `t.marks[filename]` and the
boolean `ret`. -/
def preProcess (mk : Thrift → Bool) : Thrift → List Nat × Bool
  | .mk pid fn svcs incs =>
    let r0 := mk (.mk pid fn svcs incs)
    let r := preProcessList mk incs
    (r.1, r0 || r.2)

/-- The include loop of `Trimmer.preProcess` (trim fragment, line 368). -/
def preProcessList (mk : Thrift → Bool) : List (Nat × Thrift) → List Nat × Bool
  | [] => ([], false)
  | (eid, t) :: rest =>
    let sub := preProcess mk t
    let r := preProcessList mk rest
    (sub.1 ++ (if sub.2 then [eid] else []) ++ r.1, sub.2 || r.2)
end

/-- `filepath.Ext` on the reversed character list: collect the final
path element's characters up to and including the last dot; no dot (or a
slash first) means no extension. -/
def extRev : List Char → List Char
  | [] => []
  | c :: rest =>
    if c = '.' then [c]
    else if c = '/' then []
    else match extRev rest with
      | [] => []
      | l => c :: l

/-- `filepath.Ext`: the suffix of the last path element starting at its
last dot, empty when there is none. -/
def filepathExt (p : String) : String :=
  String.mk (extRev p.data.reverse).reverse

/-- `GoBackend.PostProcess` (backend.go:314): with `NoFmt` set the
content passes through; for a `.go` path the content is formatted by the
opaque `format.Source` (abstracted as `formatSource`), a failure being
logged as a warning and leaving the content unchanged; any other
extension passes through.  The Go error result is always nil, modelled
as the `Option String` component being `none` on every path. -/
def PostProcess (formatSource : String → Except String String) (env : Env)
    (path content : String) : (String × Option String) × List String :=
  if env.features.noFmt then ((content, none), [])
  else if filepathExt path = ".go" then
    match formatSource content with
    | .error e => ((content, none), ["Failed to format " ++ path ++ ": " ++ e])
    | .ok formated => ((formated, none), [])
  else ((content, none), [])

/-- The AST produced by the streaming-removal stage of `Generate`
(backend.go:105): the root's streaming functions are removed exactly
when `ThriftStreaming` is off. -/
def astAfterStreaming (env : Env) (ast1 : Thrift) : Thrift :=
  if !env.features.thriftStreaming then (removeStreamingFunctions env ast1).1 else ast1

/-- First occurrences by Program identity: the sublist of `l` the
`processed` map of `executeTemplates` lets through, given the
identities already seen. -/
def firstOccurrences (seen : List Nat) : List Thrift → List Thrift
  | [] => []
  | t :: rest =>
    if t.ptrId ∈ seen then firstOccurrences seen rest
    else t :: firstOccurrences (t.ptrId :: seen) rest

/-- The main filename `renderOneFile` computes for a Program
(backend.go:199). -/
def mainFilename (env : Env) (req : Request) (ast : Thrift) : String :=
  pathJoin (env.combineOutputPath req.outputPath ast) (env.getFilename ast)

/-- What one `renderByTemplate` call may append for a target filename:
either nothing, or a full-file artifact at that filename immediately
followed by a fragment tagged with insertion point `imports`. -/
def importsBlock (fn : String) (b : List Generated) : Prop :=
  b = [] ∨ ∃ c ic,
    b = [{ content := c, name := some fn, insertionPoint := none },
         { content := ic, name := none, insertionPoint := some "imports" }]

/-- A sample environment in which every function classifies as
streaming, streaming support is disabled, trimming is off, and every
scope is nil (so rendering appends nothing and never fails). -/
def cexEnv : Env :=
  { features := ⟨false, false, false, false, false, false, false⟩,
    optionsError := none, trimAST := fun t => .ok t,
    parseStreaming := fun _ => .ok ⟨true⟩,
    buildRefScope := fun _ => .ok (none, none),
    combineOutputPath := fun p _ => p, getFilename := Thrift.filename,
    execTemplate := fun _ _ => .ok "", execImportsTemplate := fun _ _ => .ok "",
    resolveImports := fun _ => .ok [] }

/-- A Program included by the counterexample root, owning one service
with one (streaming) function. -/
def cexIncluded : Thrift := .mk 1 "b.thrift" [⟨"S", [⟨"Watch"⟩]⟩] []

/-- The counterexample root: no services of its own, one include edge to
`cexIncluded`. -/
def cexRoot : Thrift := .mk 0 "root.thrift" [] [(7, cexIncluded)]

/-- The counterexample request: recursive generation from `cexRoot`. -/
def cexReq : Request := { ast := cexRoot, outputPath := "out", recursive := true }

/-- An environment whose per-file scope carries the file's name and whose
main template fails exactly on the file named `b.thrift`: rendering
succeeds for the root, then fails for the included file. -/
def failEnv : Env :=
  { cexEnv with
    parseStreaming := fun _ => .ok ⟨false⟩,
    buildRefScope := fun t => .ok (some ⟨[t.filename], [], [], [], [], [], [], []⟩, none),
    execTemplate := fun _ s => if s.constants = ["b.thrift"] then .error "boom" else .ok "code" }

/-- A recursive request over a root `a.thrift` including `b.thrift`,
used with `failEnv`. -/
def failReq : Request :=
  { ast := .mk 0 "a.thrift" [] [(7, .mk 1 "b.thrift" [] [])],
    outputPath := "out", recursive := true }

/-- `strings.TrimSuffix` removes a suffix that is actually present. -/
theorem trimSuffix_append (stem suf : String) : trimSuffix (stem ++ suf) suf = stem := by
  unfold trimSuffix
  rw [String.data_append]
  rw [if_pos (by simp [List.isSuffixOf, List.isPrefixOf_iff_prefix])]
  have h : (stem.data ++ suf.data).take ((stem.data ++ suf.data).length - suf.data.length)
      = stem.data := by
    simp [List.length_append]
  rw [h]

/-- C8: for a main filename `f` ending in `.go` (written `stem ++ ".go"`),
the reference filename replaces the trailing `.go` by `-ref.go` unless
preserve-name mode is active (then it is `f` itself); the reflection
filename replaces it by `-reflection.go`; the reflection-reference
filename replaces it by `-reflection-ref.go`, except under preserve-name
mode where it equals the reflection filename.  Identical inputs yield
identical names because all four are pure functions of their
arguments. -/
theorem filename_suffix_rules (f stem : String) (h : f = stem ++ ".go") :
    ToRefFilename false f = stem ++ "-ref.go" ∧
    ToRefFilename true f = f ∧
    ToReflectionFilename f = stem ++ "-reflection.go" ∧
    ToReflectionRefFilename false f = stem ++ "-reflection-ref.go" ∧
    ToReflectionRefFilename true f = ToReflectionFilename f := by
  subst h
  refine ⟨?_, rfl, ?_, ?_, rfl⟩ <;>
    simp [ToRefFilename, ToReflectionFilename, ToReflectionRefFilename, trimSuffix_append]

/-- Witness for C8 at the concrete filename `a.go`. -/
theorem filename_suffix_rules_witness :
    ToRefFilename false ("a" ++ ".go") = "a" ++ "-ref.go" ∧
    ToRefFilename true ("a" ++ ".go") = "a" ++ ".go" ∧
    ToReflectionFilename ("a" ++ ".go") = "a" ++ "-reflection.go" ∧
    ToReflectionRefFilename false ("a" ++ ".go") = "a" ++ "-reflection-ref.go" ∧
    ToReflectionRefFilename true ("a" ++ ".go") = ToReflectionFilename ("a" ++ ".go") :=
  filename_suffix_rules ("a" ++ ".go") "a" rfl

/-- C6: `Scope.IsEmpty` holds iff every one of the eight partitions is
empty, and with `SkipEmpty` enabled `renderByTemplate` on an empty scope
appends no artifact (neither a full file nor an imports fragment),
reports no error, and leaves the pool untouched. -/
theorem isEmpty_iff_and_skipEmpty (s : Scope) (env : Env) (tpl : TplId)
    (fn : String) (pool : Pool) (hskip : env.features.skipEmpty = true) :
    (s.IsEmpty = true ↔
      (s.constants = [] ∧ s.typedefs = [] ∧ s.enums = [] ∧ s.structs = [] ∧
       s.unions = [] ∧ s.exceptions = [] ∧ s.services = [] ∧ s.synthesized = [])) ∧
    (s.IsEmpty = true → renderByTemplate env (some s) tpl fn pool = (none, [], pool)) := by
  constructor
  · simp [Scope.IsEmpty, List.length_eq_zero, and_assoc]
  · intro he
    simp [renderByTemplate, hskip, he]

/-- Witness for C6 at the all-empty scope. -/
theorem isEmpty_iff_and_skipEmpty_witness :
    let s : Scope := ⟨[], [], [], [], [], [], [], []⟩
    let env : Env :=
      { features := ⟨false, false, false, false, false, true, false⟩,
        optionsError := none, trimAST := fun t => .ok t,
        parseStreaming := fun _ => .ok ⟨false⟩,
        buildRefScope := fun _ => .ok (none, none),
        combineOutputPath := fun p _ => p, getFilename := Thrift.filename,
        execTemplate := fun _ _ => .ok "", execImportsTemplate := fun _ _ => .ok "",
        resolveImports := fun _ => .ok [] }
    (s.IsEmpty = true ↔
      (s.constants = [] ∧ s.typedefs = [] ∧ s.enums = [] ∧ s.structs = [] ∧
       s.unions = [] ∧ s.exceptions = [] ∧ s.services = [] ∧ s.synthesized = [])) ∧
    (s.IsEmpty = true → renderByTemplate env (some s) .main "f.go" [] = (none, [], [])) :=
  isEmpty_iff_and_skipEmpty _ _ .main "f.go" [] rfl

/-- C9: `PostProcess` never fails: the Go error component is `none` on
every path; with `NoFmt` set the content passes through untouched with
no warnings; a non-`.go` extension passes the content through; and for a
`.go` path whose formatting fails the original content is returned
unchanged together with one warning.  Formatter failure therefore never
fails the request. -/
theorem postProcess_never_fails (fs : String → Except String String) (env : Env)
    (path content : String) :
    ((PostProcess fs env path content).1.2 = none) ∧
    (env.features.noFmt = true → PostProcess fs env path content = ((content, none), [])) ∧
    (filepathExt path ≠ ".go" → (PostProcess fs env path content).1.1 = content) ∧
    (∀ e, env.features.noFmt = false → filepathExt path = ".go" → fs content = .error e →
      PostProcess fs env path content
        = ((content, none), ["Failed to format " ++ path ++ ": " ++ e])) := by
  refine ⟨?_, ?_, ?_, ?_⟩
  · unfold PostProcess
    split
    · rfl
    · split
      · cases h : fs content <;> simp [h]
      · rfl
  · intro h
    simp [PostProcess, h]
  · intro h
    by_cases hn : env.features.noFmt <;> simp [PostProcess, hn, h]
  · intro e hn hg he
    simp [PostProcess, hn, hg, he]

/-- Witness for C9: formatting `abc` in `x.go` fails, the content is kept
and one warning is produced. -/
theorem postProcess_never_fails_witness :
    let env : Env :=
      { features := ⟨false, false, false, false, false, false, false⟩,
        optionsError := none, trimAST := fun t => .ok t,
        parseStreaming := fun _ => .ok ⟨false⟩,
        buildRefScope := fun _ => .ok (none, none),
        combineOutputPath := fun p _ => p, getFilename := Thrift.filename,
        execTemplate := fun _ _ => .ok "", execImportsTemplate := fun _ _ => .ok "",
        resolveImports := fun _ => .ok [] }
    PostProcess (fun _ => .error "boom") env "x.go" "abc"
      = (("abc", none), ["Failed to format " ++ "x.go" ++ ": " ++ "boom"]) :=
  (postProcess_never_fails (fun _ => .error "boom") _ "x.go" "abc").2.2.2 "boom" rfl
    (by decide) rfl

/-- If the subtree rooted at `(eid, t)` reports a mark, the loop of
`preProcess` adds the edge identity `eid` to the Mark Set. -/
theorem preProcessList_marks (mk : Thrift → Bool) (eid : Nat) (t : Thrift) :
    ∀ l : List (Nat × Thrift), (eid, t) ∈ l → (preProcess mk t).2 = true →
      eid ∈ (preProcessList mk l).1 := by
  intro l
  induction l with
  | nil => intro h _; cases h
  | cons hd rest ih =>
    intro hmem hmark
    obtain ⟨e2, t2⟩ := hd
    rcases List.mem_cons.mp hmem with heq | hmem2
    · obtain ⟨he, ht⟩ := Prod.mk.injEq .. ▸ heq.symm
      subst he
      subst ht
      simp [preProcessList, hmark]
    · simp [preProcessList]
      right
      right
      exact ih hmem2 hmark

/-- C3: whenever `markKeptPart` (abstracted as `mk`) marks a declaration
of an included Program — it returns true on that Program — the
corresponding include edge of the current Program is added to the
current file's Mark Set by `preProcess`. -/
theorem preProcess_marks_kept_include (mk : Thrift → Bool) (ast : Thrift)
    (eid : Nat) (t : Thrift) (hmem : (eid, t) ∈ ast.includes) (hmark : mk t = true) :
    eid ∈ (preProcess mk ast).1 := by
  have hp : (preProcess mk t).2 = true := by
    cases t with
    | mk pid fn svcs incs => simp [preProcess, hmark]
  cases ast with
  | mk pid fn svcs incs =>
    simp only [preProcess]
    exact preProcessList_marks mk eid t incs (by simpa [Thrift.includes] using hmem) hp

/-- Witness for C3: a root with one include whose Program is marked; the
edge identity 5 lands in the Mark Set. -/
theorem preProcess_marks_kept_include_witness :
    5 ∈ (preProcess (fun _ => true)
          (Thrift.mk 0 "root" [] [(5, Thrift.mk 1 "b" [] [])])).1 :=
  preProcess_marks_kept_include (fun _ => true) _ 5 (Thrift.mk 1 "b" [] [])
    (List.mem_cons_self _ _) rfl

/-- Lengths: filtering out the elements satisfying `p` leaves
`length − (number satisfying p)` elements. -/
theorem length_filter_not (p : α → Bool) (l : List α) :
    (l.filter (fun a => !p a)).length = l.length - (l.filter p).length := by
  induction l with
  | nil => rfl
  | cons a l ih =>
    have hle := List.length_filter_le p l
    cases h : p a <;> simp [h, ih] <;> omega

/-- The function loop of `removeStreamingFunctions`, fully described when
every function classifies successfully: the kept functions are the
non-streaming ones appended to the accumulator, and the warnings are one
skip warning per streaming function, in order. -/
theorem filterStep_foldl (env : Env) (svc : Service) :
    ∀ (l : List Function) (acc : List Function × List String),
      (∀ f ∈ l, ∃ st, env.parseStreaming f = Except.ok st) →
      l.foldl (filterStep env svc) acc
        = (acc.1 ++ l.filter (fun f => !isStreamingB env f),
           acc.2 ++ (l.filter (fun f => isStreamingB env f)).map (skipStreamingWarning svc)) := by
  intro l
  induction l with
  | nil => intro acc _; simp
  | cons f rest ih =>
    intro acc hall
    obtain ⟨st, hst⟩ := hall f (List.mem_cons_self f rest)
    have hrest : ∀ g ∈ rest, ∃ st, env.parseStreaming g = Except.ok st :=
      fun g hg => hall g (List.mem_cons_of_mem f hg)
    have hsb : isStreamingB env f = st.isStreaming := by simp [isStreamingB, hst]
    cases hb : st.isStreaming <;>
      simp [filterStep, hst, hb, hsb, ih _ hrest, List.append_assoc]

/-- C2 (amended): capability filtering — applied by `Generate` to the
root Program only — never removes a Service (the rewritten service list
is the elementwise image of the original, so its length is preserved
even when a Service is left with zero Functions), and for a Service
whose N functions all classify successfully, K of them as streaming, the
rewritten Service keeps its name and exactly the N−K non-streaming
functions, with exactly one warning logged per dropped function. -/
theorem capability_filter_exactness (env : Env) (ast : Thrift) (svc : Service)
    (hall : ∀ f ∈ svc.functions, ∃ st, env.parseStreaming f = Except.ok st) :
    ((removeStreamingFunctions env ast).1.services
        = ast.services.map (fun s => (filterServiceFunctions env s).1)) ∧
    ((removeStreamingFunctions env ast).1.services.length = ast.services.length) ∧
    ((filterServiceFunctions env svc).1.name = svc.name) ∧
    ((filterServiceFunctions env svc).1.functions
        = svc.functions.filter (fun f => !isStreamingB env f)) ∧
    ((filterServiceFunctions env svc).1.functions.length
        = svc.functions.length - (svc.functions.filter (fun f => isStreamingB env f)).length) ∧
    ((filterServiceFunctions env svc).2
        = (svc.functions.filter (fun f => isStreamingB env f)).map (skipStreamingWarning svc)) := by
  have hfold := filterStep_foldl env svc svc.functions ([], []) hall
  have hmap : (removeStreamingFunctions env ast).1.services
      = ast.services.map (fun s => (filterServiceFunctions env s).1) := by
    cases ast with
    | mk pid fn svcs incs =>
      simp [removeStreamingFunctions, Thrift.services, List.map_map]
  refine ⟨hmap, by simp [hmap], rfl, ?_, ?_, ?_⟩
  · simp [filterServiceFunctions, hfold]
  · simp [filterServiceFunctions, hfold, length_filter_not]
  · simp [filterServiceFunctions, hfold]

/-- Counterexample to C2 as stated: with streaming disabled and the one
function of the included Program's service classifying (successfully) as
streaming (N = 1, K = 1), the walker processes the included Program
(ptrId 1), yet its service still carries 1 function rather than the
claimed N − K = 0: `Generate` applies capability filtering to the root
Program only, never to Programs reached through include edges. -/
theorem capability_filter_counterexample :
    cexEnv.features.thriftStreaming = false ∧
    cexEnv.parseStreaming ⟨"Watch"⟩ = .ok ⟨true⟩ ∧
    ((generate cexEnv cexReq []).processed.map
        (fun t => (t.ptrId, t.services.map (fun s => s.functions.length))))
      = [(0, []), (1, [1])] := by
  refine ⟨rfl, rfl, ?_⟩
  rfl

/-- Witness for C2 (amended) at a service with one unary and one
streaming function: one function and one warning remain. -/
theorem capability_filter_exactness_witness :
    let env : Env :=
      { cexEnv with
        parseStreaming := fun f => .ok ⟨f.name = "Watch"⟩ }
    let svc : Service := ⟨"S", [⟨"Get"⟩, ⟨"Watch"⟩]⟩
    ((removeStreamingFunctions env (.mk 1 "b.thrift" [svc] [])).1.services
        = [svc].map (fun s => (filterServiceFunctions env s).1)) ∧
    ((removeStreamingFunctions env (.mk 1 "b.thrift" [svc] [])).1.services.length
        = (Thrift.mk 1 "b.thrift" [svc] []).services.length) ∧
    ((filterServiceFunctions env svc).1.name = svc.name) ∧
    ((filterServiceFunctions env svc).1.functions
        = svc.functions.filter (fun f => !isStreamingB env f)) ∧
    ((filterServiceFunctions env svc).1.functions.length
        = svc.functions.length - (svc.functions.filter (fun f => isStreamingB env f)).length) ∧
    ((filterServiceFunctions env svc).2
        = (svc.functions.filter (fun f => isStreamingB env f)).map (skipStreamingWarning svc)) :=
  capability_filter_exactness _ _ _ (fun f _ => ⟨⟨f.name = "Watch"⟩, rfl⟩)

/-- The streaming stage inside `generateAfterTrim` computes
`astAfterStreaming`. -/
theorem generateAfterTrim_finalAst (env : Env) (req : Request) (err0 : Option String)
    (ast1 : Thrift) (pool : Pool) :
    (generateAfterTrim env req err0 ast1 pool).finalAst = astAfterStreaming env ast1 := by
  unfold generateAfterTrim astAfterStreaming
  cases h : env.features.thriftStreaming <;>
    cases env.features.skipGoGen <;>
    cases err0 <;>
    simp [h] <;>
    rcases executeTemplates env req _ pool with ⟨e, a, pr, pl⟩ <;> rfl

/-- Error propagation of `generateAfterTrim`: an option-handling error or
a template-execution error each yield the single-error response, and
every response is either error-free or a bare single-error response. -/
theorem generateAfterTrim_errors (env : Env) (req : Request) (err0 : Option String)
    (ast1 : Thrift) (pool : Pool) :
    (∀ e, err0 = some e → (generateAfterTrim env req err0 ast1 pool).response = BuildErrorResponse e) ∧
    (∀ e, err0 = none → env.features.skipGoGen = false →
      (executeTemplates env req (astAfterStreaming env ast1) pool).1 = some e →
      (generateAfterTrim env req err0 ast1 pool).response = BuildErrorResponse e) ∧
    ((generateAfterTrim env req err0 ast1 pool).response.error = none ∨
      ∃ e, (generateAfterTrim env req err0 ast1 pool).response = BuildErrorResponse e) := by
  unfold generateAfterTrim astAfterStreaming
  cases hts : env.features.thriftStreaming <;>
    cases hskip : env.features.skipGoGen <;> cases err0 <;>
    simp [hts, buildResponse, BuildErrorResponse] <;>
    rcases hE : executeTemplates env req _ pool with ⟨e, a, pr, pl⟩ <;>
    cases e <;> simp_all [buildResponse, BuildErrorResponse]

/-- C1: on any fatal error — option handling, trimming, or a scope-build
or render failure inside template execution — `Generate` returns the
single-error response `BuildErrorResponse e` (one error string, zero
artifacts: artifacts already collected for earlier files are discarded
by `buildResponse`), and in general every response is either error-free
or exactly such a bare single-error response. -/
theorem generate_fatal_single_error (env : Env) (req : Request) (pool : Pool) :
    ((generate env req pool).response.error = none ∨
      ∃ e, (generate env req pool).response = BuildErrorResponse e) ∧
    (env.optionsError.isSome = true →
      ∃ e, (generate env req pool).response = BuildErrorResponse e) ∧
    (∀ e, env.features.trimIDL = true → env.trimAST req.ast = Except.error e →
      (generate env req pool).response = BuildErrorResponse e) ∧
    (∀ e, env.optionsError = none → env.features.skipGoGen = false →
      env.features.trimIDL = false →
      (executeTemplates env req (astAfterStreaming env req.ast) pool).1 = some e →
      (generate env req pool).response = BuildErrorResponse e) ∧
    (∀ e ast1, env.optionsError = none → env.features.skipGoGen = false →
      env.features.trimIDL = true → env.trimAST req.ast = Except.ok ast1 →
      (executeTemplates env req (astAfterStreaming env ast1) pool).1 = some e →
      (generate env req pool).response = BuildErrorResponse e) := by
  cases htr : env.features.trimIDL with
  | false =>
    obtain ⟨h1, h2, h3⟩ := generateAfterTrim_errors env req env.optionsError req.ast pool
    have hg : generate env req pool = generateAfterTrim env req env.optionsError req.ast pool := by
      unfold generate
      simp [htr]
    refine ⟨by rw [hg]; exact h3, ?_, ?_, ?_, ?_⟩
    · intro hs
      obtain ⟨e, he⟩ := Option.isSome_iff_exists.mp hs
      exact ⟨e, by rw [hg]; exact h1 e he⟩
    · intro e hc _
      simp at hc
    · intro e hopt hskip _ hexec
      rw [hg]
      exact h2 e hopt hskip hexec
    · intro e ast1 _ _ hc _ _
      simp at hc
  | true =>
    cases hT : env.trimAST req.ast with
    | error e0 =>
      have hg : generate env req pool
          = { response := BuildErrorResponse e0, finalAst := req.ast, processed := [],
              warnings := [], pool := pool } := by
        unfold generate
        simp [htr, hT]
      refine ⟨Or.inr ⟨e0, by rw [hg]⟩, fun _ => ⟨e0, by rw [hg]⟩, ?_, ?_, ?_⟩
      · intro e _ hE
        injection hE with h
        subst h
        rw [hg]
      · intro e _ _ hc _
        simp at hc
      · intro e ast1 _ _ _ hok _
        simp at hok
    | ok ast1 =>
      obtain ⟨h1, h2, h3⟩ := generateAfterTrim_errors env req env.optionsError ast1 pool
      have hg : generate env req pool = generateAfterTrim env req env.optionsError ast1 pool := by
        unfold generate
        simp [htr, hT]
      refine ⟨by rw [hg]; exact h3, ?_, ?_, ?_, ?_⟩
      · intro hs
        obtain ⟨e, he⟩ := Option.isSome_iff_exists.mp hs
        exact ⟨e, by rw [hg]; exact h1 e he⟩
      · intro e _ hE
        simp at hE
      · intro e _ _ hc _
        simp at hc
      · intro e ast1' hopt hskip _ hok hexec
        injection hok with h
        subst h
        rw [hg]
        exact h2 e hopt hskip hexec

/-- Witness for C1: rendering succeeds for `a.thrift` (two artifacts were
appended), then fails for `b.thrift`; the whole run yields the bare
single-error response. -/
theorem generate_fatal_single_error_witness :
    (generate failEnv failReq []).response
      = BuildErrorResponse ("out" ++ "/" ++ "b.thrift" ++ ": " ++ "boom") :=
  (generate_fatal_single_error failEnv failReq []).2.2.2.1
    ("out" ++ "/" ++ "b.thrift" ++ ": " ++ "boom") rfl rfl rfl (by rfl)

/-- C10: with `SkipGoGen` enabled and no earlier fatal error (options
valid; trimming disabled or successful), `Generate` renders nothing —
no Program reaches `renderOneFile` — and returns the fresh success
response with zero artifacts and no error; the streaming-removal stage
still runs first, so when `ThriftStreaming` is additionally disabled the
final AST is the streaming-filtered one. -/
theorem generate_skipGoGen (env : Env) (req : Request) (pool : Pool)
    (hskip : env.features.skipGoGen = true) (hopt : env.optionsError = none) :
    (env.features.trimIDL = false →
      (generate env req pool).response = NewResponse ∧
      (generate env req pool).processed = [] ∧
      (generate env req pool).finalAst = astAfterStreaming env req.ast ∧
      (env.features.thriftStreaming = false →
        (generate env req pool).finalAst = (removeStreamingFunctions env req.ast).1)) ∧
    (∀ ast1, env.features.trimIDL = true → env.trimAST req.ast = Except.ok ast1 →
      (generate env req pool).response = NewResponse ∧
      (generate env req pool).processed = [] ∧
      (generate env req pool).finalAst = astAfterStreaming env ast1 ∧
      (env.features.thriftStreaming = false →
        (generate env req pool).finalAst = (removeStreamingFunctions env ast1).1)) := by
  have hbase : ∀ ast1, (generateAfterTrim env req none ast1 pool).response = NewResponse ∧
      (generateAfterTrim env req none ast1 pool).processed = [] := by
    intro ast1
    unfold generateAfterTrim
    simp [hskip, buildResponse, NewResponse]
  constructor
  · intro htr
    have hg : generate env req pool = generateAfterTrim env req none req.ast pool := by
      unfold generate
      simp [htr, ← hopt]
    have hstr : env.features.thriftStreaming = false →
        astAfterStreaming env req.ast = (removeStreamingFunctions env req.ast).1 := by
      intro hts
      unfold astAfterStreaming
      simp [hts]
    refine ⟨by rw [hg]; exact (hbase req.ast).1, by rw [hg]; exact (hbase req.ast).2, ?_, ?_⟩
    · rw [hg]
      exact generateAfterTrim_finalAst env req none req.ast pool
    · intro hts
      rw [hg, generateAfterTrim_finalAst env req none req.ast pool]
      exact hstr hts
  · intro ast1 htr hT
    have hg : generate env req pool = generateAfterTrim env req none ast1 pool := by
      unfold generate
      simp [htr, hT, ← hopt]
    have hstr : env.features.thriftStreaming = false →
        astAfterStreaming env ast1 = (removeStreamingFunctions env ast1).1 := by
      intro hts
      unfold astAfterStreaming
      simp [hts]
    refine ⟨by rw [hg]; exact (hbase ast1).1, by rw [hg]; exact (hbase ast1).2, ?_, ?_⟩
    · rw [hg]
      exact generateAfterTrim_finalAst env req none ast1 pool
    · intro hts
      rw [hg, generateAfterTrim_finalAst env req none ast1 pool]
      exact hstr hts

/-- Witness for C10: `cexEnv` with `SkipGoGen` switched on renders
nothing and answers the empty success response, while the root's
streaming function removal still happened. -/
theorem generate_skipGoGen_witness :
    let env : Env := { cexEnv with features := ⟨false, false, true, false, false, false, false⟩ }
    (generate env cexReq []).response = NewResponse ∧
    (generate env cexReq []).processed = [] ∧
    (generate env cexReq []).finalAst = astAfterStreaming env cexReq.ast ∧
    (env.features.thriftStreaming = false →
      (generate env cexReq []).finalAst = (removeStreamingFunctions env cexReq.ast).1) :=
  (generate_skipGoGen _ cexReq [] rfl rfl).1 rfl

/-- The error and artifact outputs of `renderByTemplate` do not depend on
the state of the buffer pool — every checked-out buffer is `Reset`
before use — only the returned pool does. -/
theorem renderByTemplate_shape (env : Env) (scope : Option Scope) (tpl : TplId)
    (fn : String) :
    ∃ E A, ∀ pool, ∃ p2, renderByTemplate env scope tpl fn pool = (E, A, p2) := by
  cases scope with
  | none => exact ⟨none, [], fun pool => ⟨pool, rfl⟩⟩
  | some s =>
    cases hsk : env.features.skipEmpty && s.IsEmpty with
    | true =>
      refine ⟨none, [], fun pool => ⟨pool, ?_⟩⟩
      simp [renderByTemplate, hsk]
    | false =>
      cases hT : env.execTemplate tpl s with
      | error e =>
        refine ⟨some (fn ++ ": " ++ e), [],
          fun pool => ⟨poolPut "" (poolGet pool).2, ?_⟩⟩
        simp [renderByTemplate, hsk, hT]
      | ok out =>
        cases hI : env.resolveImports s with
        | error e =>
          refine ⟨some e,
            [{ content := "" ++ out, name := some fn, insertionPoint := none }],
            fun pool => ⟨poolPut ("" ++ out) (poolGet pool).2, ?_⟩⟩
          simp [renderByTemplate, hsk, hT, hI]
        | ok imports =>
          cases hJ : env.execImportsTemplate tpl imports with
          | error e =>
            refine ⟨some (fn ++ ": " ++ e),
              [{ content := "" ++ out, name := some fn, insertionPoint := none }],
              fun pool => ⟨poolPut "" (poolGet pool).2, ?_⟩⟩
            simp [renderByTemplate, hsk, hT, hI, hJ]
          | ok outi =>
            refine ⟨none,
              [{ content := "" ++ out, name := some fn, insertionPoint := none },
               { content := "" ++ outi, name := none, insertionPoint := some "imports" }],
              fun pool => ⟨poolPut ("" ++ outi) (poolGet pool).2, ?_⟩⟩
            simp [renderByTemplate, hsk, hT, hI, hJ]

/-- The error and artifact outputs of `renderOneFile` do not depend on
the state of the buffer pool. -/
theorem renderOneFile_shape (env : Env) (req : Request) (ast : Thrift) :
    ∃ E A, ∀ pool, ∃ p2, renderOneFile env req ast pool = (E, A, p2) := by
  cases hbs : env.buildRefScope ast with
  | error e =>
    refine ⟨some e, [], fun pool => ⟨pool, ?_⟩⟩
    simp [renderOneFile, hbs]
  | ok scopes =>
    obtain ⟨ls, rs⟩ := scopes
    obtain ⟨E1, A1, h1⟩ := renderByTemplate_shape env ls .main
      (pathJoin (env.combineOutputPath req.outputPath ast) (env.getFilename ast))
    obtain ⟨E2, A2, h2⟩ := renderByTemplate_shape env rs .ref
      (ToRefFilename env.features.keepCodeRefName
        (pathJoin (env.combineOutputPath req.outputPath ast) (env.getFilename ast)))
    obtain ⟨E3, A3, h3⟩ := renderByTemplate_shape env rs .reflectionRef
      (ToReflectionRefFilename env.features.keepCodeRefName
        (pathJoin (env.combineOutputPath req.outputPath ast) (env.getFilename ast)))
    obtain ⟨E4, A4, h4⟩ := renderByTemplate_shape env ls .reflection
      (ToReflectionFilename
        (pathJoin (env.combineOutputPath req.outputPath ast) (env.getFilename ast)))
    cases E1 with
    | some e =>
      refine ⟨some e, A1, fun pool => ?_⟩
      obtain ⟨p1, hp1⟩ := h1 pool
      exact ⟨p1, by simp [renderOneFile, hbs, hp1]⟩
    | none =>
      cases E2 with
      | some e =>
        refine ⟨some e, A1 ++ A2, fun pool => ?_⟩
        obtain ⟨p1, hp1⟩ := h1 pool
        obtain ⟨p2, hp2⟩ := h2 p1
        exact ⟨p2, by simp [renderOneFile, hbs, hp1, hp2]⟩
      | none =>
        cases hrefl : env.features.withReflection with
        | false =>
          refine ⟨none, A1 ++ A2, fun pool => ?_⟩
          obtain ⟨p1, hp1⟩ := h1 pool
          obtain ⟨p2, hp2⟩ := h2 p1
          exact ⟨p2, by simp [renderOneFile, hbs, hp1, hp2, hrefl]⟩
        | true =>
          cases E3 with
          | some e =>
            refine ⟨some e, A1 ++ A2 ++ A3, fun pool => ?_⟩
            obtain ⟨p1, hp1⟩ := h1 pool
            obtain ⟨p2, hp2⟩ := h2 p1
            obtain ⟨p3, hp3⟩ := h3 p2
            exact ⟨p3, by simp [renderOneFile, hbs, hp1, hp2, hp3, hrefl]⟩
          | none =>
            refine ⟨E4, A1 ++ A2 ++ A3 ++ A4, fun pool => ?_⟩
            obtain ⟨p1, hp1⟩ := h1 pool
            obtain ⟨p2, hp2⟩ := h2 p1
            obtain ⟨p3, hp3⟩ := h3 p2
            obtain ⟨p4, hp4⟩ := h4 p3
            exact ⟨p4, by simp [renderOneFile, hbs, hp1, hp2, hp3, hp4, hrefl]⟩

/-- The error, artifact and processed-Program outputs of the
`executeTemplates` loop do not depend on the initial buffer-pool
state. -/
theorem executeTemplatesLoop_pool_indep (env : Env) (req : Request) :
    ∀ (trees : List Thrift) (seen : List Nat) (acc : List Generated)
      (procs : List Thrift) (p q : Pool),
      (executeTemplatesLoop env req trees seen acc procs p).1
        = (executeTemplatesLoop env req trees seen acc procs q).1 ∧
      (executeTemplatesLoop env req trees seen acc procs p).2.1
        = (executeTemplatesLoop env req trees seen acc procs q).2.1 ∧
      (executeTemplatesLoop env req trees seen acc procs p).2.2.1
        = (executeTemplatesLoop env req trees seen acc procs q).2.2.1 := by
  intro trees
  induction trees with
  | nil => intro seen acc procs p q; exact ⟨rfl, rfl, rfl⟩
  | cons t rest ih =>
    intro seen acc procs p q
    by_cases hmem : t.ptrId ∈ seen
    · simpa [executeTemplatesLoop, hmem] using ih seen acc procs p q
    · obtain ⟨E, A, hshape⟩ := renderOneFile_shape env req t
      obtain ⟨p1, hp⟩ := hshape p
      obtain ⟨q1, hq⟩ := hshape q
      cases E with
      | some e => simp [executeTemplatesLoop, hmem, hp, hq]
      | none =>
        simpa [executeTemplatesLoop, hmem, hp, hq]
          using ih (t.ptrId :: seen) (acc ++ A) (procs ++ [t]) p1 q1

/-- The response of `generateAfterTrim`, written as an explicit function
of the stage outputs. -/
theorem generateAfterTrim_response_eq (env : Env) (req : Request) (err0 : Option String)
    (ast1 : Thrift) (pool : Pool) :
    (generateAfterTrim env req err0 ast1 pool).response
      = (if env.features.skipGoGen then buildResponse err0 []
         else match err0 with
              | some e => BuildErrorResponse e
              | none =>
                buildResponse (executeTemplates env req (astAfterStreaming env ast1) pool).1
                  (executeTemplates env req (astAfterStreaming env ast1) pool).2.1) := by
  unfold generateAfterTrim astAfterStreaming
  cases hts : env.features.thriftStreaming <;>
    cases hsk : env.features.skipGoGen <;>
    cases err0 <;>
    simp [hts, hsk] <;>
    rcases hE : executeTemplates env req _ pool with ⟨e, a, pr, pl⟩ <;>
    cases e <;> simp_all [buildResponse]

/-- C5: with trimming disabled, two executions of `Generate` over the
same request — differing only in the inter-run mutable state, the
buffer pool — produce identical responses: the same ordered artifact
list byte for byte (import fragments included) or the same error.
Every other input of the pipeline is an explicit pure value, so the
response is a function of the request alone. -/
theorem generate_two_runs_identical (env : Env) (req : Request) (p1 p2 : Pool)
    (htrim : env.features.trimIDL = false) :
    (generate env req p1).response = (generate env req p2).response := by
  have hloop := executeTemplatesLoop_pool_indep env req
  have hexec : ∀ ast, (executeTemplates env req ast p1).1 = (executeTemplates env req ast p2).1 ∧
      (executeTemplates env req ast p1).2.1 = (executeTemplates env req ast p2).2.1 := by
    intro ast
    unfold executeTemplates
    exact ⟨(hloop _ [] [] [] p1 p2).1, (hloop _ [] [] [] p1 p2).2.1⟩
  have hg1 : generate env req p1 = generateAfterTrim env req env.optionsError req.ast p1 := by
    unfold generate
    simp [htrim]
  have hg2 : generate env req p2 = generateAfterTrim env req env.optionsError req.ast p2 := by
    unfold generate
    simp [htrim]
  rw [hg1, hg2, generateAfterTrim_response_eq, generateAfterTrim_response_eq]
  cases env.features.skipGoGen with
  | true => simp
  | false =>
    cases env.optionsError with
    | some e => simp
    | none =>
      simp only [if_neg]
      rw [(hexec (astAfterStreaming env req.ast)).1, (hexec (astAfterStreaming env req.ast)).2]

/-- Witness for C5: two runs of the same failing request from different
pool states (a dirty buffer vs. none) answer the same response. -/
theorem generate_two_runs_identical_witness :
    (generate failEnv failReq ["junk"]).response = (generate failEnv failReq []).response :=
  generate_two_runs_identical failEnv failReq ["junk"] [] rfl

/-- When the `executeTemplates` loop finishes without error, the Programs
it passed to `renderOneFile` are exactly the first occurrences (by
Program identity) of the walker's stream, after those already seen. -/
theorem executeTemplatesLoop_procs (env : Env) (req : Request) :
    ∀ (trees : List Thrift) (seen : List Nat) (acc : List Generated)
      (procs : List Thrift) (pool : Pool),
      (executeTemplatesLoop env req trees seen acc procs pool).1 = none →
      (executeTemplatesLoop env req trees seen acc procs pool).2.2.1
        = procs ++ firstOccurrences seen trees := by
  intro trees
  induction trees with
  | nil => intro seen acc procs pool _; simp [executeTemplatesLoop, firstOccurrences]
  | cons t rest ih =>
    intro seen acc procs pool h
    by_cases hmem : t.ptrId ∈ seen
    · simp only [executeTemplatesLoop, hmem, if_true, firstOccurrences] at h ⊢
      exact ih seen acc procs pool h
    · rcases hR : renderOneFile env req t pool with ⟨e, arts, pool1⟩
      cases e with
      | some e2 => simp [executeTemplatesLoop, hmem, hR] at h
      | none =>
        simp only [executeTemplatesLoop, hmem, if_false, hR, firstOccurrences] at h ⊢
        rw [ih (t.ptrId :: seen) (acc ++ arts) (procs ++ [t]) pool1 h]
        simp

/-- Counting a Program identity in the first-occurrence stream: one when
reachable and not yet seen, zero otherwise. -/
theorem firstOccurrences_count (p : Nat) :
    ∀ (l : List Thrift) (seen : List Nat),
      (firstOccurrences seen l).countP (fun t => t.ptrId = p)
        = if p ∈ l.map Thrift.ptrId ∧ p ∉ seen then 1 else 0 := by
  intro l
  induction l with
  | nil => intro seen; simp [firstOccurrences]
  | cons t rest ih =>
    intro seen
    by_cases hmem : t.ptrId ∈ seen
    · simp only [firstOccurrences, hmem, if_true]
      rw [ih seen]
      by_cases hp : p = t.ptrId
      · subst hp
        simp [hmem]
      · simp [hp, Ne.symm hp]
    · simp only [firstOccurrences, hmem, if_false]
      rw [List.countP_cons, ih (t.ptrId :: seen)]
      by_cases hp : p = t.ptrId
      · subst hp
        simp [hmem]
      · simp [hp, Ne.symm hp]

/-- C4: in recursive mode, a run of `executeTemplates` that finishes
without error passes every Program reachable from the root through
include edges (every element of the depth-first stream) to
`renderOneFile` exactly once, deduplicating by Program identity
(`ptrId`, standing for Go pointer identity — a diamond's shared
descendant appears once, while distinct parses with equal path strings
are distinct); in non-recursive mode exactly the root Program is
rendered. -/
theorem walker_renders_each_reachable_once (env : Env) (req : Request)
    (ast : Thrift) (pool : Pool) :
    (req.recursive = true →
      (executeTemplates env req ast pool).1 = none →
      ∀ p : Nat,
        ((executeTemplates env req ast pool).2.2.1.countP (fun t => t.ptrId = p))
          = if p ∈ (dfs ast).map Thrift.ptrId then 1 else 0) ∧
    (req.recursive = false → (executeTemplates env req ast pool).2.2.1 = [ast]) := by
  constructor
  · intro hrec hok p
    unfold executeTemplates at hok ⊢
    rw [hrec] at hok ⊢
    simp only [if_true] at hok ⊢
    rw [executeTemplatesLoop_procs env req (dfs ast) [] [] [] pool hok]
    rw [List.nil_append, firstOccurrences_count p (dfs ast) []]
    simp
  · intro hrec
    unfold executeTemplates
    rw [hrec]
    simp only [if_false]
    by_cases hmem : ast.ptrId ∈ ([] : List Nat)
    · simp at hmem
    · rcases hR : renderOneFile env req ast pool with ⟨e, arts, pool1⟩
      cases e with
      | some e2 => simp [executeTemplatesLoop, hR]
      | none => simp [executeTemplatesLoop, hR]

/-- Witness for C4: a diamond — the root includes `a` and `b`, both of
which include the same Program `c` (identity 3); `c` is rendered exactly
once. -/
theorem walker_renders_each_reachable_once_witness :
    let c : Thrift := .mk 3 "c" [] []
    let rootT : Thrift :=
      .mk 0 "root" [] [(10, .mk 1 "a" [] [(12, c)]), (11, .mk 2 "b" [] [(13, c)])]
    let req : Request := { ast := rootT, outputPath := "out", recursive := true }
    ((executeTemplates cexEnv req rootT []).2.2.1.countP (fun t => t.ptrId = 3))
      = if 3 ∈ (dfs rootT).map Thrift.ptrId then 1 else 0 :=
  (walker_renders_each_reachable_once cexEnv _ _ []).1 rfl (by rfl) 3

/-- A successful `renderByTemplate` call appends an imports block for its
filename: nothing, or a full file immediately followed by the `imports`
fragment. -/
theorem renderByTemplate_ok_block (env : Env) (scope : Option Scope) (tpl : TplId)
    (fn : String) (pool : Pool)
    (hok : (renderByTemplate env scope tpl fn pool).1 = none) :
    importsBlock fn (renderByTemplate env scope tpl fn pool).2.1 := by
  cases scope with
  | none => exact Or.inl rfl
  | some s =>
    cases hsk : env.features.skipEmpty && s.IsEmpty with
    | true =>
      left
      simp [renderByTemplate, hsk]
    | false =>
      cases hT : env.execTemplate tpl s with
      | error e => simp [renderByTemplate, hsk, hT] at hok
      | ok out =>
        cases hI : env.resolveImports s with
        | error e => simp [renderByTemplate, hsk, hT, hI] at hok
        | ok imports =>
          cases hJ : env.execImportsTemplate tpl imports with
          | error e => simp [renderByTemplate, hsk, hT, hI, hJ] at hok
          | ok outi =>
            right
            exact ⟨"" ++ out, "" ++ outi, by simp [renderByTemplate, hsk, hT, hI, hJ]⟩

/-- C7: a successful `renderOneFile` appends its artifacts in the fixed
order main file, reference file, then — exactly when reflection is
enabled — reflection-reference file and reflection file, where each of
the four contributions is either empty (nil or suppressed scope) or a
full-file artifact at the stage's filename immediately followed by a
fragment artifact tagged with insertion point `imports`. -/
theorem renderOneFile_artifact_order (env : Env) (req : Request) (ast : Thrift)
    (pool : Pool) (hok : (renderOneFile env req ast pool).1 = none) :
    ∃ b1 b2 b3 b4,
      (renderOneFile env req ast pool).2.1 = b1 ++ b2 ++ b3 ++ b4 ∧
      importsBlock (mainFilename env req ast) b1 ∧
      importsBlock
        (ToRefFilename env.features.keepCodeRefName (mainFilename env req ast)) b2 ∧
      (env.features.withReflection = true →
        importsBlock
          (ToReflectionRefFilename env.features.keepCodeRefName (mainFilename env req ast)) b3 ∧
        importsBlock (ToReflectionFilename (mainFilename env req ast)) b4) ∧
      (env.features.withReflection = false → b3 = [] ∧ b4 = []) := by
  cases hbs : env.buildRefScope ast with
  | error e => simp [renderOneFile, hbs] at hok
  | ok scopes =>
    obtain ⟨ls, rs⟩ := scopes
    rcases h1 : renderByTemplate env ls .main (mainFilename env req ast) pool
      with ⟨e1, a1, q1⟩
    have hu1 : renderByTemplate env ls TplId.main
        (pathJoin (env.combineOutputPath req.outputPath ast) (env.getFilename ast)) pool
        = (e1, a1, q1) := h1
    cases e1 with
    | some e => simp [renderOneFile, hbs, hu1] at hok
    | none =>
      have hb1 : importsBlock (mainFilename env req ast) a1 := by
        have := renderByTemplate_ok_block env ls .main (mainFilename env req ast) pool
          (by rw [h1])
        rw [h1] at this
        exact this
      rcases h2 : renderByTemplate env rs .ref
          (ToRefFilename env.features.keepCodeRefName (mainFilename env req ast)) q1
        with ⟨e2, a2, q2⟩
      have hu2 : renderByTemplate env rs TplId.ref
          (ToRefFilename env.features.keepCodeRefName
            (pathJoin (env.combineOutputPath req.outputPath ast) (env.getFilename ast))) q1
          = (e2, a2, q2) := h2
      cases e2 with
      | some e => simp [renderOneFile, hbs, hu1, hu2] at hok
      | none =>
        have hb2 : importsBlock
            (ToRefFilename env.features.keepCodeRefName (mainFilename env req ast)) a2 := by
          have := renderByTemplate_ok_block env rs .ref
            (ToRefFilename env.features.keepCodeRefName (mainFilename env req ast)) q1
            (by rw [h2])
          rw [h2] at this
          exact this
        cases hrefl : env.features.withReflection with
        | false =>
          refine ⟨a1, a2, [], [], ?_, hb1, hb2, ?_, fun _ => ⟨rfl, rfl⟩⟩
          · simp [renderOneFile, hbs, hu1, hu2, hrefl]
          · intro hc
            simp at hc
        | true =>
          rcases h3 : renderByTemplate env rs .reflectionRef
              (ToReflectionRefFilename env.features.keepCodeRefName (mainFilename env req ast)) q2
            with ⟨e3, a3, q3⟩
          have hu3 : renderByTemplate env rs TplId.reflectionRef
              (ToReflectionRefFilename env.features.keepCodeRefName
                (pathJoin (env.combineOutputPath req.outputPath ast) (env.getFilename ast))) q2
              = (e3, a3, q3) := h3
          cases e3 with
          | some e => simp [renderOneFile, hbs, hu1, hu2, hrefl, hu3] at hok
          | none =>
            have hb3 : importsBlock
                (ToReflectionRefFilename env.features.keepCodeRefName
                  (mainFilename env req ast)) a3 := by
              have := renderByTemplate_ok_block env rs .reflectionRef
                (ToReflectionRefFilename env.features.keepCodeRefName
                  (mainFilename env req ast)) q2 (by rw [h3])
              rw [h3] at this
              exact this
            rcases h4 : renderByTemplate env ls .reflection
                (ToReflectionFilename (mainFilename env req ast)) q3
              with ⟨e4, a4, q4⟩
            have hu4 : renderByTemplate env ls TplId.reflection
                (ToReflectionFilename
                  (pathJoin (env.combineOutputPath req.outputPath ast) (env.getFilename ast))) q3
                = (e4, a4, q4) := h4
            cases e4 with
            | some e => simp [renderOneFile, hbs, hu1, hu2, hrefl, hu3, hu4] at hok
            | none =>
              have hb4 : importsBlock (ToReflectionFilename (mainFilename env req ast)) a4 := by
                have := renderByTemplate_ok_block env ls .reflection
                  (ToReflectionFilename (mainFilename env req ast)) q3 (by rw [h4])
                rw [h4] at this
                exact this
              refine ⟨a1, a2, a3, a4, ?_, hb1, hb2, fun _ => ⟨hb3, hb4⟩, ?_⟩
              · simp [renderOneFile, hbs, hu1, hu2, hrefl, hu3, hu4]
              · intro hc
                simp at hc

/-- Witness for C7: rendering `a.thrift` under `failEnv` succeeds; the
appended artifacts decompose into the ordered blocks. -/
theorem renderOneFile_artifact_order_witness :
    ∃ b1 b2 b3 b4,
      (renderOneFile failEnv failReq failReq.ast []).2.1 = b1 ++ b2 ++ b3 ++ b4 ∧
      importsBlock (mainFilename failEnv failReq failReq.ast) b1 ∧
      importsBlock
        (ToRefFilename failEnv.features.keepCodeRefName
          (mainFilename failEnv failReq failReq.ast)) b2 ∧
      (failEnv.features.withReflection = true →
        importsBlock
          (ToReflectionRefFilename failEnv.features.keepCodeRefName
            (mainFilename failEnv failReq failReq.ast)) b3 ∧
        importsBlock (ToReflectionFilename (mainFilename failEnv failReq failReq.ast)) b4) ∧
      (failEnv.features.withReflection = false → b3 = [] ∧ b4 = []) :=
  renderOneFile_artifact_order failEnv failReq failReq.ast [] (by rfl)

end Thriftgo
